import Mathlib

/-!
Shallow embedding of the overlord-api control-plane core: the service
directory (RegistryService), the health monitor (HealthService), the
gateway (GatewayService) and the event bus (EventService), together with
the Service entity and its guards.

Modelling conventions:
- Timestamps (`new Date()` / `Date.now()`) are explicit `Nat` parameters
  named `now`; wall-clock elapsed time is not modelled, so fields such as
  `responseTimeMs` are filled with 0.
- Outbound HTTP is an oracle: a pure function from the destination URL and
  the timeout bound to an outcome value.  A fetch that raises is an
  explicit outcome constructor, so fallible code returns `Except`.
- The in-memory registry repository is a list of services; see the doc
  comment on `Registry`.
- Opaque payloads (JSON bodies, metadata maps, event data) are modelled as
  strings or association lists; percent-encoding and unicode lower-casing
  are modelled at the ASCII level, which covers every input appearing in
  the claims.
-/

namespace Overlord

/-- Service lifecycle status, from `ServiceStatus` in
src/src/domain/shared/types/index.ts. -/
inductive ServiceStatus
  | healthy
  | unhealthy
  | degraded
  | unknown
  | starting
  | stopping
  deriving DecidableEq, Repr

/-- Service categories, from `ServiceType` in
src/src/domain/shared/types/index.ts. -/
inductive ServiceType
  | agent
  | web_app
  | mobile_app
  | api
  deriving DecidableEq, Repr

/-- Rendering of `ServiceType` enum values to their string form. -/
def ServiceType.toStr : ServiceType → String
  | .agent => "agent"
  | .web_app => "web_app"
  | .mobile_app => "mobile_app"
  | .api => "api"

/-- Event type tags, from `EventType` in src/src/domain/shared/types/index.ts. -/
inductive EventType
  | service_registered
  | service_deregistered
  | service_health_changed
  | command_dispatched
  | command_completed
  | command_failed
  | workflow_started
  | workflow_completed
  | workflow_failed
  deriving DecidableEq, Repr

/-- Error codes, from `ErrorCode` in the domain errors module
(src/unnamed/part_013).  Only the codes reachable from the embedded
operations are listed. -/
inductive ErrorCode
  | VALIDATION_ERROR
  | NOT_FOUND
  | SERVICE_UNAVAILABLE
  | GATEWAY_TIMEOUT
  | COMMAND_DISPATCH_FAILED
  deriving DecidableEq, Repr

/-- Embeds `DomainError`, from the domain errors module (src/unnamed/part_013).
Messages are modelled without the surrounding quote characters of the
source templates. -/
structure DomainError where
  code : ErrorCode
  message : String
  statusCode : Nat
  deriving DecidableEq, Repr

/-- The NOT_FOUND error raised by `throwIfNull`
(src/src/domain/shared/guards/index.ts). -/
def throwIfNullError (identifier : String) : DomainError :=
  { code := ErrorCode.NOT_FOUND
    message := "Resource " ++ identifier ++ " was not found"
    statusCode := 404 }

/-- Embeds `DomainError.serviceUnavailable` (src/unnamed/part_013). -/
def serviceUnavailableError (serviceId : String) : DomainError :=
  { code := ErrorCode.SERVICE_UNAVAILABLE
    message := "Service " ++ serviceId ++ " is currently unavailable"
    statusCode := 503 }

/-- Embeds `DomainError.gatewayTimeout` (src/unnamed/part_013). -/
def gatewayTimeoutError (serviceId : String) : DomainError :=
  { code := ErrorCode.GATEWAY_TIMEOUT
    message := "Request to service " ++ serviceId ++ " timed out"
    statusCode := 504 }

/-- A VALIDATION_ERROR from the `Guard` clauses
(src/src/domain/shared/guards/index.ts). -/
def validationError (message : String) : DomainError :=
  { code := ErrorCode.VALIDATION_ERROR, message := message, statusCode := 400 }

/-- Domain constants (src/unnamed/part_012). -/
def HEALTH_CHECK_TIMEOUT_MS : Nat := 5000

/-- Domain constants (src/unnamed/part_012). -/
def COMMAND_TIMEOUT_MS : Nat := 30000

/-! ## Slug derivation (RegistryService.generateServiceId) -/

/-- A character kept verbatim by the slug regex `[^a-z0-9]+`:
a lowercase ASCII letter or a digit. -/
def isSlugChar (c : Char) : Bool :=
  (decide ('a' ≤ c) && decide (c ≤ 'z')) || (decide ('0' ≤ c) && decide (c ≤ '9'))

/-- State-machine reading of `replace(/[^a-z0-9]+/g, '-')`: the boolean
tracks whether we are inside a run of non-slug characters whose dash has
already been emitted. -/
def collapseRuns : Bool → List Char → List Char
  | _, [] => []
  | inRun, c :: rest =>
    if isSlugChar c then c :: collapseRuns false rest
    else if inRun then collapseRuns true rest
    else '-' :: collapseRuns true rest

/-- The `^-` half of `replace(/^-|-$/g, '')`: at most one leading dash is
removed. -/
def stripLeadingDash : List Char → List Char
  | '-' :: rest => rest
  | l => l

/-- The `-$` half of `replace(/^-|-$/g, '')`: at most one trailing dash is
removed. -/
def stripTrailingDash (l : List Char) : List Char :=
  if l.getLast? = some '-' then l.dropLast else l

/-- Embeds `RegistryService.generateServiceId`
(src/src/application/registry/RegistryService.ts, lines 138-143):
lower-case, collapse runs of non-alphanumerics to one dash, strip a
leading and a trailing dash.  `Char.toLower` models the ASCII action of
`toLowerCase()`; any character it leaves outside a-z or 0-9 is collapsed
into a dash either way. -/
def generateServiceId (name : String) : String :=
  String.mk (stripTrailingDash (stripLeadingDash
    (collapseRuns false (name.data.map Char.toLower))))

/-- Slug collapse as the spec words it: each maximal run of
non-alphanumeric characters is replaced, in one step, by a single dash. -/
def specCollapse : List Char → List Char
  | [] => []
  | c :: rest =>
    if isSlugChar c then c :: specCollapse rest
    else '-' :: specCollapse (rest.dropWhile (fun d => !isSlugChar d))
termination_by l => l.length
decreasing_by
  all_goals simp only [List.length_cons]
  · omega
  · have h : ∀ (p : Char → Bool) (l : List Char), (l.dropWhile p).length ≤ l.length := by
      intro p l
      induction l with
      | nil => simp [List.dropWhile]
      | cons a t ih =>
        rw [List.dropWhile_cons]
        split
        · exact Nat.le_succ_of_le ih
        · exact Nat.le_refl _
    exact Nat.lt_succ_of_le (h _ rest)

/-- Slug derivation following the words of the spec, to be compared with
the code-derived `generateServiceId`. -/
def specSlug (name : String) : String :=
  String.mk (stripTrailingDash (stripLeadingDash
    (specCollapse (name.data.map Char.toLower))))

/-! ## Overall-status aggregation (HealthService) -/

/-- Per-status counters accumulated by the counting switch that both
aggregation entry points of HealthService share verbatim. -/
structure Tally where
  healthy : Nat
  unhealthy : Nat
  degraded : Nat
  unknowns : Nat
  deriving DecidableEq, Repr

/-- The empty tally. -/
def Tally.init : Tally :=
  { healthy := 0, unhealthy := 0, degraded := 0, unknowns := 0 }

/-- One step of the counting switch: healthy, unhealthy and degraded each
have a case, every other status falls into the default (unknown) bucket. -/
def Tally.add (t : Tally) : ServiceStatus → Tally
  | .healthy => { t with healthy := t.healthy + 1 }
  | .unhealthy => { t with unhealthy := t.unhealthy + 1 }
  | .degraded => { t with degraded := t.degraded + 1 }
  | _ => { t with unknowns := t.unknowns + 1 }

/-- Counting a whole list of statuses. -/
def tallyOf (sts : List ServiceStatus) : Tally := sts.foldl Tally.add Tally.init

/-- Overall-status derivation exactly as inlined in
`HealthService.checkAllServices`
(src/src/application/health/HealthService.ts, lines 128-140). -/
def deriveOverallCheckAll (total healthy unhealthy degraded : Nat) : ServiceStatus :=
  if 0 < unhealthy then (if total = unhealthy then .unhealthy else .degraded)
  else if 0 < degraded then .degraded
  else if 0 < healthy then .healthy
  else .unknown

/-- Overall-status derivation exactly as inlined a second time in
`HealthService.getAggregatedHealth`
(src/src/application/health/HealthService.ts, lines 194-205); the source
duplicates the logic rather than sharing it, so the embedding keeps two
separate definitions. -/
def deriveOverallAggregated (total healthy unhealthy degraded : Nat) : ServiceStatus :=
  if 0 < unhealthy then (if total = unhealthy then .unhealthy else .degraded)
  else if 0 < degraded then .degraded
  else if 0 < healthy then .healthy
  else .unknown

/-- The derivation as the spec states it: unhealthy iff every service is
unhealthy and there is at least one; else degraded iff any service is
unhealthy or degraded; else healthy iff any service is healthy; else
unknown. -/
def specOverallStatus (total healthy degraded unhealthy : Nat) : ServiceStatus :=
  if unhealthy = total ∧ 0 < total then .unhealthy
  else if 0 < unhealthy ∨ 0 < degraded then .degraded
  else if 0 < healthy then .healthy
  else .unknown

/-- The per-status counters of an aggregated summary (the `services` block
of `AggregatedHealth`). -/
structure ServiceCountSummary where
  total : Nat
  healthy : Nat
  unhealthy : Nat
  degraded : Nat
  unknowns : Nat
  deriving DecidableEq, Repr

/-- Embeds `AggregatedHealth` without its `details` list, which no claim
mentions. -/
structure AggregatedHealth where
  status : ServiceStatus
  timestamp : Nat
  services : ServiceCountSummary
  deriving DecidableEq, Repr

/-! ## Event bus (EventService, src/unnamed/part_001) -/

/-- Embeds `DomainEvent`: a type tag, an optional service identifier, a
timestamp, and an opaque data payload modelled as an association list. -/
structure DomainEvent where
  type : EventType
  serviceId : Option String
  timestamp : Nat
  data : List (String × String)
  deriving DecidableEq, Repr

/-- Embeds `maxRecentEvents` (src/unnamed/part_001, line 13). -/
def maxRecentEvents : Nat := 100

/-- The ring-buffer half of `EventService.emit` (src/unnamed/part_001,
lines 15-20): unshift the event, then pop the oldest entry if the buffer
exceeds the capacity.  Handler fan-out never touches the buffer and is
not needed by any buffer claim. -/
def emitEvent (recentEvents : List DomainEvent) (e : DomainEvent) : List DomainEvent :=
  let grown := e :: recentEvents
  if maxRecentEvents < grown.length then grown.dropLast else grown

/-- Emitting a sequence of events, oldest first, onto an empty buffer. -/
def emitAll (es : List DomainEvent) : List DomainEvent := es.foldl emitEvent []

/-- Embeds `EventService.getRecentEvents` (src/unnamed/part_001, lines 67-69):
`slice(0, limit)` of the buffer, a non-mutating prefix. -/
def getRecentEvents (recentEvents : List DomainEvent) (limit : Nat) : List DomainEvent :=
  recentEvents.take limit

/-! ## URL model

The gateway builds its destination with the platform URL constructor,
`new URL(path, baseUrl)`, and `Guard.validUrl` accepts a string iff
`new URL(value)` succeeds.  The model below embeds WHATWG resolution for
the hierarchical (http-style) URLs this system handles: a scheme, an
authority, and a path-plus-query tail, with no dot-segment normalization
and no percent-encoding — no input appearing in the repository or in the
claims uses either. -/

/-- A character allowed in a URL scheme after the first (alphabetic)
character. -/
def isSchemeChar (c : Char) : Bool :=
  c.isAlphanum || c == '+' || c == '-' || c == '.'

/-- A valid scheme: nonempty, starts with a letter, then scheme
characters. -/
def validScheme : List Char → Bool
  | [] => false
  | c :: rest => c.isAlpha && rest.all isSchemeChar

/-- Splits a character list at the first occurrence of the literal
separator `://`, returning the part before and the part after. -/
def splitScheme : List Char → Option (List Char × List Char)
  | [] => none
  | c :: rest =>
    if c = ':' ∧ rest.take 2 = ['/', '/'] then some ([], rest.drop 2)
    else (splitScheme rest).map (fun p => (c :: p.1, p.2))

/-- The parsed form of an absolute hierarchical URL. -/
structure UrlParts where
  scheme : String
  authority : String
  pathQuery : String
  deriving DecidableEq, Repr

/-- Parses an absolute URL of the form
`scheme://authority/path?query`; returns `none` when there is no valid
scheme-and-authority, which models a throwing `new URL(value)`. -/
def parseUrl (s : String) : Option UrlParts :=
  match splitScheme s.data with
  | none => none
  | some (sch, rest) =>
    let auth := rest.takeWhile (fun c => c != '/' && c != '?')
    if validScheme sch && !auth.isEmpty then
      some { scheme := String.mk sch
             authority := String.mk auth
             pathQuery := String.mk (rest.dropWhile (fun c => c != '/' && c != '?')) }
    else none

/-- Serialization of a parsed URL; a URL whose path is empty prints with
the normalized root path `/`, as `URL.prototype.toString` does. -/
def UrlParts.render (u : UrlParts) : String :=
  u.scheme ++ "://" ++ u.authority ++ (if u.pathQuery = "" then "/" else u.pathQuery)

/-- The directory part of a base path used when resolving a relative
reference: everything up to and including the last slash, with any query
discarded. -/
def dirOfPath (pathQuery : String) : String :=
  String.mk (((pathQuery.data.takeWhile (fun c => c != '?')).reverse.dropWhile
    (fun c => c != '/')).reverse)

/-- WHATWG resolution `new URL(path, base).toString()` for a hierarchical
base: an absolute URL stands alone; `//…` is scheme-relative; `/…`
replaces the entire base path; anything else merges with the base
directory. -/
def urlResolve (path : String) (base : UrlParts) : String :=
  match parseUrl path with
  | some u => u.render
  | none =>
    if path.data = [] then base.render
    else if path.data.take 2 = ['/', '/'] then
      (match parseUrl (base.scheme ++ ":" ++ path) with
       | some u => u.render
       | none => base.render)
    else if path.data.take 1 = ['/'] then
      base.scheme ++ "://" ++ base.authority ++ path
    else
      base.scheme ++ "://" ++ base.authority ++
        (let d := dirOfPath base.pathQuery; if d = "" then "/" else d) ++ path

/-- Appending one query parameter, as `url.searchParams.append` followed
by serialization does: introduce `?` if the URL has no query yet, else
`&`. -/
def appendQueryParam (url : String) (kv : String × String) : String :=
  if url.data.contains '?' then url ++ "&" ++ kv.1 ++ "=" ++ kv.2
  else url ++ "?" ++ kv.1 ++ "=" ++ kv.2

/-- Appending every given query parameter in order
(src/unnamed/part_006, lines 28-32). -/
def addQueryParams (url : String) (query : List (String × String)) : String :=
  query.foldl appendQueryParam url

/-! ## The Service entity (src/src/domain/shared/types/index.ts) -/

/-- Embeds `ServiceCapability`. -/
structure ServiceCapability where
  name : String
  version : String
  description : Option String
  deriving DecidableEq, Repr

/-- The diagnostic payload captured by a health check: the parsed body of
a 2xx response when present, the HTTP status of a non-2xx response, or
the failure message of a thrown fetch. -/
inductive HealthDetails
  | empty
  | body (payload : String)
  | httpStatus (status : Nat)
  | errorMessage (msg : String)
  deriving DecidableEq, Repr

/-- Embeds `HealthCheckResult`. -/
structure HealthCheckResult where
  status : ServiceStatus
  timestamp : Nat
  responseTimeMs : Nat
  details : HealthDetails
  deriving DecidableEq, Repr

/-- The `Service` entity.  The code exposes the mutable fields through
accessors and `toSnapshot` copies all fields into a plain record of the
same shape, so the embedding uses one record for both the entity and its
snapshot. -/
structure Service where
  id : String
  name : String
  type : ServiceType
  baseUrl : String
  healthEndpoint : String
  capabilities : List ServiceCapability
  metadata : List (String × String)
  version : String
  registeredAt : Nat
  status : ServiceStatus
  lastHealthCheck : Option HealthCheckResult
  lastSeenAt : Nat
  deriving DecidableEq, Repr

/-- Embeds `ServiceProps`, the constructor input. -/
structure ServiceProps where
  id : String
  name : String
  type : ServiceType
  baseUrl : String
  healthEndpoint : Option String
  capabilities : Option (List ServiceCapability)
  metadata : Option (List (String × String))
  version : Option String
  deriving DecidableEq, Repr

/-- Embeds `Guard.stringNotEmpty`, which rejects a string that is empty or
whitespace-only (`!value || value.trim().length === 0`). -/
def isBlankString (s : String) : Bool :=
  s.data.all Char.isWhitespace

/-- The `baseUrl.replace(trailing-slash regex, '')` normalization of the
Service constructor: at most one trailing slash is removed. -/
def stripTrailingSlash (s : String) : String :=
  if s.data.getLast? = some '/' then String.mk s.data.dropLast else s

/-- JavaScript `||`-defaulting for an optional string: `undefined` and the
empty string both fall back to the default. -/
def orDefault (v : Option String) (dflt : String) : String :=
  match v with
  | some s => if s = "" then dflt else s
  | none => dflt

/-- The Service constructor (src/src/domain/shared/types/index.ts, lines
297-316): guard-validates id, name and baseUrl, strips a trailing slash
from the base address, fills defaults, and starts in `starting` status
with a fresh registration and last-seen time. -/
def Service.create (props : ServiceProps) (now : Nat) : Except DomainError Service :=
  if isBlankString props.id then
    .error (validationError "id cannot be null, empty, or whitespace")
  else if isBlankString props.name then
    .error (validationError "name cannot be null, empty, or whitespace")
  else if (parseUrl props.baseUrl).isNone then
    .error (validationError "baseUrl must be a valid URL")
  else
    .ok { id := props.id
          name := props.name
          type := props.type
          baseUrl := stripTrailingSlash props.baseUrl
          healthEndpoint := orDefault props.healthEndpoint "/health"
          capabilities := props.capabilities.getD []
          metadata := props.metadata.getD []
          version := orDefault props.version "1.0.0"
          registeredAt := now
          status := ServiceStatus.starting
          lastHealthCheck := none
          lastSeenAt := now }

/-- Embeds `Service.isAvailable` (lines 368-371). -/
def Service.isAvailable (s : Service) : Bool :=
  decide (s.status = ServiceStatus.healthy) || decide (s.status = ServiceStatus.degraded)

/-- Embeds `Service.touch` (lines 351-353). -/
def Service.touch (s : Service) (now : Nat) : Service :=
  { s with lastSeenAt := now }

/-- Embeds `Service.updateHealthStatus` (lines 332-336): the cached result, the
status and the last-seen time are all replaced at once. -/
def Service.updateHealthStatus (s : Service) (result : HealthCheckResult) (now : Nat) : Service :=
  { s with lastHealthCheck := some result, status := result.status, lastSeenAt := now }

/-- Embeds `Service.getFullHealthUrl` (lines 355-357): plain string
concatenation of base address and health path. -/
def Service.getFullHealthUrl (s : Service) : String :=
  s.baseUrl ++ s.healthEndpoint

/-! ## The directory -/

/-- Embeds the `services : Map<string, Service>` store of
`InMemoryRegistryRepository` (the in-memory registry repository module,
staged as the last document concatenated into
src/src/infrastructure/users/PostgresUserRepository.ts; it is the
implementation src/src/index.ts imports and constructs).  A JavaScript
Map iterated in insertion order is embedded as the list of its entries
in that order; its keys are the service ids, unique by construction —
the one theorem that needs this uniqueness takes it as an explicit
hypothesis.  As values are keyed by `service.id`, the key of each entry
is carried by the entry itself. -/
abbrev Registry := List Service

/-- Embeds `InMemoryRegistryRepository.findById`:
`this.services.get(id) || null` — the stored entry under the id, or
nothing (a Service object is never falsy). -/
def findById (reg : Registry) (id : String) : Option Service :=
  reg.find? (fun s => decide (s.id = id))

/-- Embeds `InMemoryRegistryRepository.findByType`:
`Array.from(this.services.values()).filter(s => s.type === type)`. -/
def findByType (reg : Registry) (t : ServiceType) : List Service :=
  reg.filter (fun s => decide (s.type = t))

/-- Embeds `InMemoryRegistryRepository.findAll`:
`Array.from(this.services.values())`, the entries in insertion order. -/
def findAll (reg : Registry) : List Service := reg

/-- Embeds `InMemoryRegistryRepository.save`:
`this.services.set(service.id, service)` — a Map set replaces the value
of an existing key in place, keeping its insertion position, and appends
a new key at the end. -/
def save (reg : Registry) (s : Service) : Registry :=
  if reg.any (fun x => decide (x.id = s.id)) then
    reg.map (fun x => if x.id = s.id then s else x)
  else reg ++ [s]

/-- Embeds `InMemoryRegistryRepository.delete`:
`this.services.delete(id)` removes the entry under the id and returns
whether it existed. -/
def deleteService (reg : Registry) (id : String) : Registry × Bool :=
  (reg.filter (fun s => decide (s.id ≠ id)), (findById reg id).isSome)

/-! ## Health monitor (src/src/application/health/HealthService.ts) -/

/-- The outcome of one health-probe fetch, as seen by
`checkServiceHealth`: a received response with its status and an optional
parseable JSON body, or a raised error — a timeout abort and a network
failure both land in the same catch block. -/
inductive HealthFetchOutcome
  | ok (status : Nat) (jsonBody : Option String)
  | failure (msg : String)

/-- The network oracle for health checks: destination URL and timeout
bound to outcome. -/
abbrev HealthFetch := String → Nat → HealthFetchOutcome

/-- Embeds `HealthService.checkServiceHealth` (lines 17-90): resolve the service
(an unknown id yields an `unknown` result and no write), probe
`getFullHealthUrl` under the health-check timeout, classify — `response.ok`
(2xx) healthy, status at least 500 unhealthy, any other received response
degraded, a thrown fetch unhealthy — and persist the fresh result onto
the service wholesale via `updateHealthStatus` plus `save`. -/
def checkServiceHealth (fetch : HealthFetch) (now : Nat) (reg : Registry)
    (serviceId : String) : HealthCheckResult × Registry :=
  match findById reg serviceId with
  | none =>
    ({ status := ServiceStatus.unknown
       timestamp := now
       responseTimeMs := 0
       details := HealthDetails.errorMessage "Service not found" }, reg)
  | some s =>
    match fetch s.getFullHealthUrl HEALTH_CHECK_TIMEOUT_MS with
    | .ok st jsonBody =>
      let status :=
        if 200 ≤ st ∧ st ≤ 299 then ServiceStatus.healthy
        else if 500 ≤ st then ServiceStatus.unhealthy
        else ServiceStatus.degraded
      let details :=
        if 200 ≤ st ∧ st ≤ 299 then
          (match jsonBody with
           | some b => HealthDetails.body b
           | none => HealthDetails.empty)
        else HealthDetails.httpStatus st
      let result : HealthCheckResult :=
        { status := status, timestamp := now, responseTimeMs := 0, details := details }
      (result, save reg (s.updateHealthStatus result now))
    | .failure msg =>
      let result : HealthCheckResult :=
        { status := ServiceStatus.unhealthy
          timestamp := now
          responseTimeMs := 0
          details := HealthDetails.errorMessage msg }
      (result, save reg (s.updateHealthStatus result now))

/-- The per-service loop of `checkAllServices` (lines 101-126): check each
directory entry in turn, collecting the result statuses and threading the
repository writes. -/
def checkAllLoop (fetch : HealthFetch) (now : Nat) :
    List Service → Registry → List ServiceStatus × Registry
  | [], reg => ([], reg)
  | s :: rest, reg =>
    let out := checkServiceHealth fetch now reg s.id
    let tl := checkAllLoop fetch now rest out.2
    (out.1.status :: tl.1, tl.2)

/-- Embeds `HealthService.checkAllServices` (lines 92-154): fresh active checks
over every entry of `findAll`, then the counting switch and the inline
overall-status derivation. -/
def checkAllServices (fetch : HealthFetch) (now : Nat) (reg : Registry) :
    AggregatedHealth × Registry :=
  let services := findAll reg
  let out := checkAllLoop fetch now services reg
  let t := tallyOf out.1
  ({ status := deriveOverallCheckAll services.length t.healthy t.unhealthy t.degraded
     timestamp := now
     services :=
       { total := services.length
         healthy := t.healthy
         unhealthy := t.unhealthy
         degraded := t.degraded
         unknowns := t.unknowns } }, out.2)

/-- Embeds `HealthService.getAggregatedHealth` (lines 161-219): the counting
switch over the already-cached statuses and the duplicated inline
overall-status derivation; no network call and no write. -/
def getAggregatedHealth (reg : Registry) (now : Nat) : AggregatedHealth :=
  let services := findAll reg
  let t := tallyOf (services.map (fun s => s.status))
  { status := deriveOverallAggregated services.length t.healthy t.unhealthy t.degraded
    timestamp := now
    services :=
      { total := services.length
        healthy := t.healthy
        unhealthy := t.unhealthy
        degraded := t.degraded
        unknowns := t.unknowns } }

/-! ## Gateway (src/unnamed/part_006) -/

/-- HTTP methods accepted by the proxy routes. -/
inductive Method
  | GET
  | POST
  | PUT
  | PATCH
  | DELETE
  deriving DecidableEq, Repr

/-- Embeds `ProxyRequest` (from IGatewayService): headers and body are opaque. -/
structure ProxyRequest where
  serviceId : String
  method : Method
  path : String
  headers : List (String × String)
  body : Option String
  query : List (String × String)
  timeout : Option Nat
  deriving DecidableEq, Repr

/-- Embeds `ProxyResponse`.  Elapsed wall-clock time is not modelled, so
`responseTimeMs` is 0. -/
structure ProxyResponse where
  status : Nat
  headers : List (String × String)
  body : String
  responseTimeMs : Nat
  deriving DecidableEq, Repr

/-- The outcome of one gateway fetch: a received response (status,
headers, decoded body — decoding is opaque here), the abort raised by the
timeout, or any other transport failure. -/
inductive FetchOutcome
  | ok (status : Nat) (headers : List (String × String)) (body : String)
  | abortError
  | networkError (msg : String)

/-- The network oracle for the gateway: destination URL and timeout bound
to outcome.  The request method, headers and body do not vary within any
single claim, so the oracle is keyed by URL alone. -/
abbrev GatewayFetch := String → Nat → FetchOutcome

/-- An error escaping `GatewayService.proxy`: either a typed
`DomainError`, or a transport failure rethrown as-is by the catch
block. -/
inductive GatewayError
  | domain (e : DomainError)
  | transport (msg : String)
  deriving DecidableEq, Repr

/-- The `.message` of a caught error, as read by the broadcast catch
block. -/
def GatewayError.message : GatewayError → String
  | .domain e => e.message
  | .transport msg => msg

/-- The destination address built by `proxy` (src/unnamed/part_006, lines
25-32): `new URL(request.path, service.baseUrl)` with each query
parameter appended.  A service constructed through the guards always has
a parseable base address; the fallback branch is unreachable for stored
services and mirrors the constructor throwing. -/
def destinationUrl (s : Service) (req : ProxyRequest) : String :=
  let url :=
    match parseUrl s.baseUrl with
    | some base => urlResolve req.path base
    | none => req.path
  addQueryParams url req.query

/-- The timeout bound of one proxied call: the request timeout or the
system default (src/unnamed/part_006, line 35). -/
def effectiveTimeout (req : ProxyRequest) : Nat :=
  match req.timeout with
  | some t => t
  | none => COMMAND_TIMEOUT_MS

/-- The fetch-and-classify phase of `proxy` (lines 37-91), after the
availability gate has passed: issue the outbound call at the destination
address, map the timeout abort to GATEWAY_TIMEOUT, rethrow any other
transport failure, and wrap a received response. -/
def proxyCore (fetch : GatewayFetch) (s : Service) (req : ProxyRequest) :
    Except GatewayError ProxyResponse :=
  match fetch (destinationUrl s req) (effectiveTimeout req) with
  | .ok st hs b =>
    .ok { status := st, headers := hs, body := b, responseTimeMs := 0 }
  | .abortError => .error (.domain (gatewayTimeoutError req.serviceId))
  | .networkError msg => .error (.transport msg)

/-- Embeds `GatewayService.proxy` (lines 17-92): look up the target
(`throwIfNull` on absence), reject unavailable statuses with
SERVICE_UNAVAILABLE, run the outbound call, and on success touch the
service and save it before returning the response. -/
def proxy (fetch : GatewayFetch) (now : Nat) (reg : Registry) (req : ProxyRequest) :
    Except GatewayError ProxyResponse × Registry :=
  match findById reg req.serviceId with
  | none => (.error (.domain (throwIfNullError req.serviceId)), reg)
  | some s =>
    if s.isAvailable then
      match proxyCore fetch s req with
      | .ok resp => (.ok resp, save reg (s.touch now))
      | .error e => (.error e, reg)
    else (.error (.domain (serviceUnavailableError req.serviceId)), reg)

/-- The POST request one broadcast leg issues for its target
(src/unnamed/part_006, lines 132-137). -/
def broadcastRequest (serviceId : String) (message : String) : ProxyRequest :=
  { serviceId := serviceId
    method := Method.POST
    path := "/broadcast"
    headers := []
    body := some message
    query := []
    timeout := none }

/-- One entry of the broadcast result map: the successful response body,
or the captured error object of that leg alone. -/
inductive BroadcastEntry
  | success (body : String)
  | failure (msg : String)
  deriving DecidableEq, Repr

/-- One broadcast leg (lines 130-144): proxy the message to the target
and record either the response body or, for a throwing leg, an error
entry holding the message of the caught error. -/
def broadcastLeg (fetch : GatewayFetch) (now : Nat) (reg : Registry)
    (s : Service) (message : String) : BroadcastEntry × Registry :=
  let out := proxy fetch now reg (broadcastRequest s.id message)
  (match out.1 with
   | .ok resp => .success resp.body
   | .error e => .failure e.message,
   out.2)

/-- The targets of a broadcast (lines 121-129): the directory entries of
the requested type that pass `isAvailable`. -/
def broadcastTargets (reg : Registry) (t : ServiceType) : List Service :=
  (findByType reg t).filter (fun s => s.isAvailable)

/-- The settled legs of a broadcast, one after another, threading the
repository writes of the successful legs. -/
def broadcastGo (fetch : GatewayFetch) (now : Nat) (message : String) :
    List Service → Registry → List (String × BroadcastEntry) × Registry
  | [], reg => ([], reg)
  | s :: rest, reg =>
    let leg := broadcastLeg fetch now reg s message
    let tl := broadcastGo fetch now message rest leg.2
    ((s.id, leg.1) :: tl.1, tl.2)

/-- Embeds `GatewayService.broadcast` (lines 117-148): one independent proxy POST
per available service of the type; the result maps each target id to its
own outcome and the call itself never fails. -/
def broadcast (fetch : GatewayFetch) (now : Nat) (reg : Registry)
    (t : ServiceType) (message : String) : List (String × BroadcastEntry) × Registry :=
  broadcastGo fetch now message (broadcastTargets reg t) reg

/-! ## Registry service (src/src/application/registry/RegistryService.ts) -/

/-- Embeds `RegisterServiceRequest`. -/
structure RegisterServiceRequest where
  name : String
  type : ServiceType
  baseUrl : String
  healthEndpoint : Option String
  capabilities : Option (List ServiceCapability)
  metadata : Option (List (String × String))
  version : Option String
  deriving DecidableEq, Repr

/-- The constructor input `registerService` assembles for a new entry
(lines 56-66), with the derived slug as id. -/
def propsOfRequest (req : RegisterServiceRequest) : ServiceProps :=
  { id := generateServiceId req.name
    name := req.name
    type := req.type
    baseUrl := req.baseUrl
    healthEndpoint := req.healthEndpoint
    capabilities := req.capabilities
    metadata := req.metadata
    version := req.version }

/-- What a successful `registerService` returns and leaves behind: the
snapshot given to the caller, the directory afterwards, and the events
emitted on the bus. -/
structure RegisterOutcome where
  snapshot : Service
  registry : Registry
  events : List DomainEvent
  deriving Repr

/-- Embeds `RegistryService.registerService` (lines 43-88): derive the slug; an
existing entry is only touched and returned (no event); otherwise
construct and save a new entity, run one initial health check through the
shared repository — its failure cannot fail the call — emit
SERVICE_REGISTERED, and return the snapshot of the (by then
health-checked) entity.  The snapshot is read back from the store because
the TypeScript code snapshots the same object the health check just
mutated. -/
def registerService (fetch : HealthFetch) (now : Nat) (reg : Registry)
    (req : RegisterServiceRequest) : Except DomainError RegisterOutcome :=
  let serviceId := generateServiceId req.name
  match findById reg serviceId with
  | some existing =>
    let updated := existing.touch now
    .ok { snapshot := updated, registry := save reg updated, events := [] }
  | none =>
    match Service.create (propsOfRequest req) now with
    | .error e => .error e
    | .ok service =>
      let reg1 := save reg service
      let checked := checkServiceHealth fetch now reg1 serviceId
      let snap := (findById checked.2 serviceId).getD service
      .ok { snapshot := snap
            registry := checked.2
            events :=
              [{ type := EventType.service_registered
                 serviceId := some serviceId
                 timestamp := now
                 data := [("name", req.name), ("type", req.type.toStr)] }] }

/-- Embeds `RegistryService.getService` (lines 105-108): `throwIfNull` on
absence. -/
def getService (reg : Registry) (serviceId : String) : Except DomainError Service :=
  match findById reg serviceId with
  | some s => .ok s
  | none => .error (throwIfNullError serviceId)

/-- Embeds `RegistryService.deregisterService` (lines 90-103): `throwIfNull` on
absence, delete, emit SERVICE_DEREGISTERED. -/
def deregisterService (now : Nat) (reg : Registry) (serviceId : String) :
    Except DomainError (Registry × List DomainEvent) :=
  match findById reg serviceId with
  | none => .error (throwIfNullError serviceId)
  | some s =>
    .ok ((deleteService reg serviceId).1,
      [{ type := EventType.service_deregistered
         serviceId := some serviceId
         timestamp := now
         data := [("name", s.name)] }])

/-- Embeds `RegistryService.heartbeat` (lines 130-136): when the id resolves,
touch and save that entry; when it does not, do nothing — no error. -/
def heartbeat (now : Nat) (reg : Registry) (serviceId : String) : Registry :=
  match findById reg serviceId with
  | some s => save reg (s.touch now)
  | none => reg

/-! ## Concrete data for the closed witnesses -/

/-- A service record with the defaulted constructor fields, for concrete
witnesses. -/
def demoService (id name : String) (t : ServiceType) (baseUrl : String)
    (st : ServiceStatus) : Service :=
  { id := id
    name := name
    type := t
    baseUrl := baseUrl
    healthEndpoint := "/health"
    capabilities := []
    metadata := []
    version := "1.0.0"
    registeredAt := 0
    status := st
    lastHealthCheck := none
    lastSeenAt := 0 }

/-- A small demonstration directory: a healthy agent, a starting agent and
a degraded agent. -/
def demoReg : Registry :=
  [demoService "alpha" "Alpha" ServiceType.agent "http://alpha.example" ServiceStatus.healthy,
   demoService "beta" "Beta" ServiceType.agent "http://beta.example" ServiceStatus.starting,
   demoService "gamma" "Gamma" ServiceType.agent "http://gamma.example" ServiceStatus.degraded]

/-- A gateway oracle whose broadcast leg to gamma raises a network error
and whose other legs answer 200. -/
def demoGatewayFetch : GatewayFetch := fun url _timeout =>
  if url = "http://gamma.example/broadcast" then FetchOutcome.networkError "boom"
  else if url = "http://alpha.example/broadcast" then FetchOutcome.ok 200 [] "ok-alpha"
  else FetchOutcome.ok 200 [] "pong"

/-- A health oracle that always fails at the transport level. -/
def demoFailingHealthFetch : HealthFetch := fun _url _timeout =>
  HealthFetchOutcome.failure "connection refused"

/-- A health oracle answering 204 (a 2xx without a JSON body). -/
def demoHealthFetch204 : HealthFetch := fun _url _timeout =>
  HealthFetchOutcome.ok 204 none

/-- A health oracle answering 503 (a server error). -/
def demoHealthFetch503 : HealthFetch := fun _url _timeout =>
  HealthFetchOutcome.ok 503 none

/-- A health oracle answering 404 (received, neither 2xx nor 5xx). -/
def demoHealthFetch404 : HealthFetch := fun _url _timeout =>
  HealthFetchOutcome.ok 404 none

/-- A proxy request used by concrete witnesses. -/
def demoProxyRequest (serviceId : String) : ProxyRequest :=
  { serviceId := serviceId
    method := Method.GET
    path := "/status"
    headers := []
    body := none
    query := []
    timeout := none }

/-- A registration request whose slug collides with the stored `alpha`
entry. -/
def demoRegisterAlpha : RegisterServiceRequest :=
  { name := "Alpha"
    type := ServiceType.agent
    baseUrl := "http://alpha-other.example"
    healthEndpoint := none
    capabilities := none
    metadata := none
    version := none }

/-- A registration request whose slug is new to the demonstration
directory. -/
def demoRegisterNew : RegisterServiceRequest :=
  { name := "New Agent"
    type := ServiceType.agent
    baseUrl := "http://new.example"
    healthEndpoint := none
    capabilities := none
    metadata := none
    version := none }

/-- The service the constructor builds for `demoRegisterNew` at time 0. -/
def demoNewService : Service :=
  demoService "new-agent" "New Agent" ServiceType.agent "http://new.example"
    ServiceStatus.starting

/-- The service of the C3 counterexample: its validated base address
carries the path component `/api`. -/
def c3Service : Service :=
  demoService "svc" "Svc" ServiceType.api "http://host:3000/api" ServiceStatus.healthy

/-- An oracle that answers only at the address with the base path
dropped, to exhibit where the proxied call actually goes. -/
def c3Fetch : GatewayFetch := fun url _timeout =>
  if url = "http://host:3000/status" then FetchOutcome.ok 200 [] "hit"
  else FetchOutcome.networkError "wrong destination"

/-- Recognizes a request path that starts with exactly one slash — the
shape every gateway route passes to `proxy` (the routes build the path as
a slash followed by the wildcard segment). -/
def singleSlashPath (p : String) : Bool :=
  decide (p.data.take 1 = ['/']) && !decide (p.data.take 2 = ['/', '/'])

/-! # Theorems -/

/-! ## Helper lemmas about the overall-status derivations -/

/-- The inline derivation of checkAllServices agrees with the
spec-stated one. -/
theorem deriveOverallCheckAll_eq_spec (total healthy unhealthy degraded : Nat) :
    deriveOverallCheckAll total healthy unhealthy degraded =
      specOverallStatus total healthy degraded unhealthy := by
  unfold deriveOverallCheckAll specOverallStatus
  split_ifs <;> first | rfl | omega

/-- The inline derivation of getAggregatedHealth agrees with the
spec-stated one. -/
theorem deriveOverallAggregated_eq_spec (total healthy unhealthy degraded : Nat) :
    deriveOverallAggregated total healthy unhealthy degraded =
      specOverallStatus total healthy degraded unhealthy := by
  unfold deriveOverallAggregated specOverallStatus
  split_ifs <;> first | rfl | omega

/-- C2: for every directory content, both the fresh check-all summary and
the cached-only aggregated summary derive their overall status from their
own counts by the spec derivation: unhealthy iff u = N and N is positive;
else degraded iff u or d is positive; else healthy iff h is positive;
else unknown — the two entry points apply the same derivation. -/
theorem overall_status_aggregation (fetch : HealthFetch) (now : Nat) (reg : Registry) :
    ((checkAllServices fetch now reg).1.status =
      specOverallStatus (checkAllServices fetch now reg).1.services.total
        (checkAllServices fetch now reg).1.services.healthy
        (checkAllServices fetch now reg).1.services.degraded
        (checkAllServices fetch now reg).1.services.unhealthy)
    ∧ ((getAggregatedHealth reg now).status =
      specOverallStatus (getAggregatedHealth reg now).services.total
        (getAggregatedHealth reg now).services.healthy
        (getAggregatedHealth reg now).services.degraded
        (getAggregatedHealth reg now).services.unhealthy) := by
  constructor
  · simp only [checkAllServices]
    exact deriveOverallCheckAll_eq_spec _ _ _ _
  · simp only [getAggregatedHealth]
    exact deriveOverallAggregated_eq_spec _ _ _ _

/-! ## Helper lemmas about the event buffer -/

/-- Within capacity, one emit is a capped cons. -/
theorem emitEvent_eq_take (st : List DomainEvent) (e : DomainEvent)
    (h : st.length ≤ maxRecentEvents) :
    emitEvent st e = (e :: st).take maxRecentEvents := by
  unfold emitEvent
  by_cases hlen : maxRecentEvents < (e :: st).length
  · simp only [hlen, if_true]
    have hst : st.length = maxRecentEvents := by
      simp only [List.length_cons] at hlen
      omega
    rw [List.dropLast_eq_take]
    simp [hst]
  · simp only [hlen, if_false]
    rw [List.take_of_length_le]
    omega

/-- Emitting a batch onto a buffer holding the capped reverse of the
events already emitted yields the capped reverse of the whole history. -/
theorem emitAll_loop (es : List DomainEvent) :
    ∀ X : List DomainEvent,
      es.foldl emitEvent (X.reverse.take maxRecentEvents) =
        ((X ++ es).reverse).take maxRecentEvents := by
  induction es with
  | nil => intro X; simp
  | cons e es ih =>
    intro X
    rw [List.foldl_cons, emitEvent_eq_take _ _ (by simp)]
    have step : (e :: X.reverse.take maxRecentEvents).take maxRecentEvents =
        ((X ++ [e]).reverse).take maxRecentEvents := by
      have h100 : maxRecentEvents = 99 + 1 := rfl
      rw [List.reverse_append]
      simp only [List.reverse_cons, List.reverse_nil, List.nil_append, List.singleton_append]
      rw [h100, List.take_succ_cons, List.take_succ_cons, List.take_take]
      simp
    rw [step, ih (X ++ [e]), List.append_assoc]
    rfl

/-- C8: the event-bus history never exceeds the capacity of 100: after
emitting any sequence of events onto an empty bus, exactly the
min(k, 100) most recently emitted events remain, newest first, and
getRecentEvents returns up to limit of them, newest first, as a
non-mutating prefix of the stored history. -/
theorem ring_buffer_bound (es : List DomainEvent) (limit : Nat) :
    emitAll es = es.reverse.take maxRecentEvents
    ∧ (emitAll es).length = min es.length maxRecentEvents
    ∧ getRecentEvents (emitAll es) limit = es.reverse.take (min limit maxRecentEvents) := by
  have hmain : emitAll es = es.reverse.take maxRecentEvents := by
    have h := emitAll_loop es []
    simpa [emitAll] using h
  refine ⟨hmain, ?_, ?_⟩
  · rw [hmain]
    simp [Nat.min_comm]
  · rw [getRecentEvents, hmain, List.take_take]

/-! ## Helper lemmas about the slug -/

/-- Once inside a run of non-slug characters, the state machine behaves
as if the rest of the run were dropped at once. -/
theorem collapseRuns_true_eq (l : List Char) :
    collapseRuns true l = collapseRuns false (l.dropWhile (fun d => !isSlugChar d)) := by
  induction l with
  | nil => rfl
  | cons c rest ih =>
    by_cases h : isSlugChar c
    · simp [collapseRuns, h, List.dropWhile_cons]
    · simp [collapseRuns, h, List.dropWhile_cons, ih]

/-- Dropping a prefix cannot lengthen a list. -/
theorem dropWhile_length_le (p : Char → Bool) (l : List Char) :
    (l.dropWhile p).length ≤ l.length := by
  induction l with
  | nil => simp [List.dropWhile]
  | cons a t ih =>
    rw [List.dropWhile_cons]
    split
    · exact Nat.le_succ_of_le ih
    · exact Nat.le_refl _

/-- The character-by-character state machine of the code and the
run-at-a-time collapse of the spec produce the same list. -/
theorem collapseRuns_eq_specCollapse (l : List Char) :
    collapseRuns false l = specCollapse l := by
  have main : ∀ (n : Nat) (l : List Char), l.length ≤ n →
      collapseRuns false l = specCollapse l := by
    intro n
    induction n with
    | zero =>
      intro l h
      have hl : l = [] := List.length_eq_zero.mp (Nat.le_zero.mp h)
      subst hl
      simp [collapseRuns, specCollapse]
    | succ n ih =>
      intro l h
      match l with
      | [] => simp [collapseRuns, specCollapse]
      | c :: rest =>
        have hrest : rest.length ≤ n := by
          simp only [List.length_cons] at h
          omega
        rw [specCollapse]
        cases hc : isSlugChar c with
        | true =>
          simp only [collapseRuns, hc, if_true]
          rw [ih rest hrest]
        | false =>
          have hdw : (rest.dropWhile (fun d => !isSlugChar d)).length ≤ n :=
            Nat.le_trans (dropWhile_length_le _ rest) hrest
          simp only [collapseRuns, hc, Bool.false_eq_true, if_false]
          rw [collapseRuns_true_eq, ih _ hdw]
  exact main l.length l (Nat.le_refl _)

/-- C5: the stored identifier is derived from the name by lower-casing,
collapsing every maximal run of characters outside lowercase letters and
digits into a single dash, and removing a leading and a trailing dash;
the code-side derivation coincides with the spec-side one, the two spec
examples compute as stated, and every successful registration stores and
returns exactly this identifier. -/
theorem slug_derivation :
    (∀ name, generateServiceId name = specSlug name)
    ∧ generateServiceId "Payment Agent" = "payment-agent"
    ∧ generateServiceId "  Multiple   Spaces!! " = "multiple-spaces"
    ∧ (∀ (fetch : HealthFetch) (now : Nat) (reg : Registry)
        (req : RegisterServiceRequest) (out : RegisterOutcome),
        registerService fetch now reg req = Except.ok out →
        out.snapshot.id = generateServiceId req.name) := by
  refine ⟨?_, by decide, by decide, ?_⟩
  · intro name
    unfold generateServiceId specSlug
    rw [collapseRuns_eq_specCollapse]
  · intro fetch now reg req out hok
    unfold registerService at hok
    cases hfind : findById reg (generateServiceId req.name) with
    | some existing =>
      simp only [hfind, Except.ok.injEq] at hok
      have hid : existing.id = generateServiceId req.name := by
        have := List.find?_some hfind
        simpa using this
      rw [← hok]
      simpa [Service.touch] using hid
    | none =>
      simp only [hfind] at hok
      cases hcreate : Service.create (propsOfRequest req) now with
      | error e => rw [hcreate] at hok; exact (Except.noConfusion hok)
      | ok service =>
        simp only [hcreate, Except.ok.injEq] at hok
        have hsid : service.id = generateServiceId req.name := by
          unfold Service.create at hcreate
          split_ifs at hcreate with h1 h2 h3
          simp only [Except.ok.injEq] at hcreate
          rw [← hcreate]
          rfl
        -- the snapshot is read back from the store at the same id
        rw [← hok]
        simp only
        cases hfind2 : findById
            (checkServiceHealth fetch now (save reg service) (generateServiceId req.name)).2
            (generateServiceId req.name) with
        | none => simpa [hfind2] using hsid
        | some snap =>
          have hsnap : snap.id = generateServiceId req.name := by
            have := List.find?_some hfind2
            simpa using this
          simpa [hfind2] using hsnap

/-! ## Helper lemmas about the directory -/

/-- The entry `findById` returns carries the looked-up id. -/
theorem findById_some_id {reg : Registry} {i : String} {s : Service}
    (h : findById reg i = some s) : s.id = i := by
  have := List.find?_some h
  simpa using this

/-- Looking up the saved id in the replace-map form of `save`. -/
theorem find?_replace_self (reg : Registry) (s : Service) :
    (reg.map (fun x => if x.id = s.id then s else x)).find? (fun x => decide (x.id = s.id)) =
      (reg.find? (fun x => decide (x.id = s.id))).map (fun _ => s) := by
  induction reg with
  | nil => rfl
  | cons x rest ih =>
    by_cases hx : x.id = s.id
    · rw [List.map_cons, if_pos hx, List.find?_cons_of_pos _ (by simp),
        List.find?_cons_of_pos _ (by simp [hx])]
      rfl
    · rw [List.map_cons, if_neg hx, List.find?_cons_of_neg _ (by simp [hx]),
        List.find?_cons_of_neg _ (by simp [hx]), ih]

/-- Looking up any other id in the replace-map form of `save`. -/
theorem find?_replace_other (reg : Registry) (s : Service) (i : String) (h : i ≠ s.id) :
    (reg.map (fun x => if x.id = s.id then s else x)).find? (fun x => decide (x.id = i)) =
      reg.find? (fun x => decide (x.id = i)) := by
  induction reg with
  | nil => rfl
  | cons x rest ih =>
    by_cases hx : x.id = s.id
    · rw [List.map_cons, if_pos hx,
        List.find?_cons_of_neg _ (by simp only [decide_eq_true_eq]; exact fun hh => h hh.symm),
        List.find?_cons_of_neg _ (by
          simp only [decide_eq_true_eq, hx]
          exact fun hh => h hh.symm),
        ih]
    · rw [List.map_cons, if_neg hx]
      by_cases hpx : x.id = i
      · rw [List.find?_cons_of_pos _ (by simp [hpx]), List.find?_cons_of_pos _ (by simp [hpx])]
      · rw [List.find?_cons_of_neg _ (by simp [hpx]), List.find?_cons_of_neg _ (by simp [hpx]),
          ih]

/-- Behavior of `findById` after `save`: the saved record is found under its id and
every other lookup is untouched. -/
theorem findById_save (reg : Registry) (s : Service) (i : String) :
    findById (save reg s) i = if i = s.id then some s else findById reg i := by
  unfold findById save
  by_cases hany : reg.any (fun x => decide (x.id = s.id)) = true
  · rw [if_pos hany]
    by_cases hi : i = s.id
    · subst hi
      rw [if_pos rfl, find?_replace_self]
      have hsome : (reg.find? (fun x => decide (x.id = s.id))).isSome = true := by
        obtain ⟨x, hmem, hpx⟩ := List.any_eq_true.mp hany
        exact List.find?_isSome.mpr ⟨x, hmem, hpx⟩
      cases hfind : reg.find? (fun x => decide (x.id = s.id)) with
      | none => rw [hfind] at hsome; simp at hsome
      | some y => rfl
    · rw [if_neg hi, find?_replace_other reg s i hi]
  · rw [if_neg hany, List.find?_append]
    by_cases hi : i = s.id
    · subst hi
      have hnone : reg.find? (fun x => decide (x.id = s.id)) = none := by
        rw [List.find?_eq_none]
        intro x hx
        simp only [decide_eq_true_eq]
        intro hxx
        exact hany (List.any_eq_true.mpr ⟨x, hx, by simp [hxx]⟩)
      rw [hnone, if_pos rfl, List.find?_cons_of_pos _ (by simp)]
      rfl
    · rw [if_neg hi,
        List.find?_cons_of_neg _ (by simp only [decide_eq_true_eq]; exact fun hh => hi hh.symm)]
      simp

/-! ## Claim C4: idempotent re-registration -/

/-- C4: when the derived identifier already exists, registerService only
refreshes the lastSeenAt of the existing entry and returns its current
snapshot; registeredAt, name, type, baseUrl, healthEndpoint,
capabilities, metadata, version, status and the cached health result are
unchanged, no event is emitted, and any differing fields of the new
request are ignored: two requests deriving the same identifier produce
the same outcome. -/
theorem idempotent_reregistration (fetch : HealthFetch) (now : Nat) (reg : Registry)
    (req : RegisterServiceRequest) (s : Service)
    (h : findById reg (generateServiceId req.name) = some s) :
    registerService fetch now reg req =
      Except.ok { snapshot := { s with lastSeenAt := now }
                  registry := save reg { s with lastSeenAt := now }
                  events := [] }
    ∧ ({ s with lastSeenAt := now } : Service).registeredAt = s.registeredAt
    ∧ ({ s with lastSeenAt := now } : Service).name = s.name
    ∧ ({ s with lastSeenAt := now } : Service).type = s.type
    ∧ ({ s with lastSeenAt := now } : Service).baseUrl = s.baseUrl
    ∧ ({ s with lastSeenAt := now } : Service).healthEndpoint = s.healthEndpoint
    ∧ ({ s with lastSeenAt := now } : Service).capabilities = s.capabilities
    ∧ ({ s with lastSeenAt := now } : Service).metadata = s.metadata
    ∧ ({ s with lastSeenAt := now } : Service).version = s.version
    ∧ ({ s with lastSeenAt := now } : Service).status = s.status
    ∧ ({ s with lastSeenAt := now } : Service).lastHealthCheck = s.lastHealthCheck
    ∧ (∀ req2 : RegisterServiceRequest,
        generateServiceId req2.name = generateServiceId req.name →
        registerService fetch now reg req2 = registerService fetch now reg req) := by
  refine ⟨?_, rfl, rfl, rfl, rfl, rfl, rfl, rfl, rfl, rfl, rfl, ?_⟩
  · unfold registerService
    simp only [h]
    rfl
  · intro req2 h2
    unfold registerService
    simp only [h2, h]

/-! ## Claim C10: heartbeat on an absent identifier -/

/-- C10: a heartbeat for an identifier absent from the directory
completes without error and leaves the directory unchanged, while
getService and deregisterService fail with NOT_FOUND there; for a present
identifier only that entry has its lastSeenAt refreshed and every other
lookup is untouched. -/
theorem heartbeat_absent_ok (now : Nat) (reg : Registry) (serviceId : String) :
    (findById reg serviceId = none →
      heartbeat now reg serviceId = reg
      ∧ getService reg serviceId = Except.error (throwIfNullError serviceId)
      ∧ deregisterService now reg serviceId = Except.error (throwIfNullError serviceId))
    ∧ (∀ s, findById reg serviceId = some s →
      heartbeat now reg serviceId = save reg { s with lastSeenAt := now }
      ∧ findById (heartbeat now reg serviceId) serviceId = some { s with lastSeenAt := now }
      ∧ (∀ i, i ≠ serviceId → findById (heartbeat now reg serviceId) i = findById reg i)) := by
  constructor
  · intro h
    refine ⟨?_, ?_, ?_⟩ <;> simp [heartbeat, getService, deregisterService, h]
  · intro s h
    have hsid : s.id = serviceId := findById_some_id h
    have htouch : heartbeat now reg serviceId = save reg (s.touch now) := by
      unfold heartbeat
      rw [h]
    refine ⟨htouch, ?_, ?_⟩
    · rw [htouch, findById_save, if_pos (by simp [Service.touch, hsid])]
      rfl
    · intro i hi
      rw [htouch, findById_save, if_neg (by simp [Service.touch, hsid]; exact hi)]

/-! ## Claim C1: the availability gate -/

/-- C1: proxy fails NOT_FOUND when the requested id has no entry, fails
SERVICE_UNAVAILABLE when the entry has status unhealthy, starting,
stopping or unknown, and for a healthy or degraded entry proceeds to the
outbound call; broadcast selects exactly the services of the requested
type whose status is healthy or degraded. -/
theorem availability_gate (fetch : GatewayFetch) (now : Nat) (reg : Registry)
    (req : ProxyRequest) :
    (findById reg req.serviceId = none →
      (proxy fetch now reg req).1 =
        Except.error (GatewayError.domain (throwIfNullError req.serviceId)))
    ∧ (∀ s, findById reg req.serviceId = some s →
        s.status ∈ [ServiceStatus.unhealthy, ServiceStatus.starting,
          ServiceStatus.stopping, ServiceStatus.unknown] →
        (proxy fetch now reg req).1 =
          Except.error (GatewayError.domain (serviceUnavailableError req.serviceId)))
    ∧ (∀ s, findById reg req.serviceId = some s →
        (s.status = ServiceStatus.healthy ∨ s.status = ServiceStatus.degraded) →
        (proxy fetch now reg req).1 = proxyCore fetch s req)
    ∧ (∀ t, broadcastTargets reg t =
        reg.filter (fun s => decide (s.type = t) &&
          (decide (s.status = ServiceStatus.healthy) ||
           decide (s.status = ServiceStatus.degraded)))) := by
  refine ⟨?_, ?_, ?_, ?_⟩
  · intro h
    unfold proxy
    rw [h]
  · intro s h hst
    unfold proxy
    rw [h]
    have hav : s.isAvailable = false := by
      simp only [List.mem_cons, List.mem_singleton, List.not_mem_nil, or_false] at hst
      unfold Service.isAvailable
      rcases hst with h1 | h1 | h1 | h1 <;> simp [h1]
    simp [hav]
  · intro s h hav
    unfold proxy
    rw [h]
    have hav2 : s.isAvailable = true := by
      unfold Service.isAvailable
      rcases hav with h1 | h1 <;> simp [h1]
    simp only [hav2, if_true]
    cases hc : proxyCore fetch s req <;> simp [hc]
  · intro t
    unfold broadcastTargets findByType Service.isAvailable
    rw [List.filter_filter]
    congr 1
    funext a
    rw [Bool.and_comm]

/-! ## Health-check helper lemmas -/

/-- When the id resolves, the result status of one active check is the
classification of the fetch outcome: 2xx healthy, at least 500 unhealthy,
other received statuses degraded, a thrown fetch unhealthy. -/
theorem checkServiceHealth_fst (fetch : HealthFetch) (now : Nat) (reg : Registry)
    (serviceId : String) (s : Service) (h : findById reg serviceId = some s) :
    (checkServiceHealth fetch now reg serviceId).1.status =
      (match fetch s.getFullHealthUrl HEALTH_CHECK_TIMEOUT_MS with
       | .ok st _ =>
         if 200 ≤ st ∧ st ≤ 299 then ServiceStatus.healthy
         else if 500 ≤ st then ServiceStatus.unhealthy
         else ServiceStatus.degraded
       | .failure _ => ServiceStatus.unhealthy) := by
  unfold checkServiceHealth
  rw [h]
  cases hf : fetch s.getFullHealthUrl HEALTH_CHECK_TIMEOUT_MS <;> simp [hf]

/-- When the id resolves, one active check writes the fresh result onto
the stored entry wholesale. -/
theorem checkServiceHealth_snd (fetch : HealthFetch) (now : Nat) (reg : Registry)
    (serviceId : String) (s : Service) (h : findById reg serviceId = some s) :
    (checkServiceHealth fetch now reg serviceId).2 =
      save reg (s.updateHealthStatus (checkServiceHealth fetch now reg serviceId).1 now) := by
  unfold checkServiceHealth
  rw [h]
  cases hf : fetch s.getFullHealthUrl HEALTH_CHECK_TIMEOUT_MS <;> simp [hf]

/-! ## Claim C6: active-check classification and persistence -/

/-- C6: an active check of a registered service classifies a 2xx response
healthy, a status of at least 500 unhealthy, any other received response
degraded, and a timeout or network failure unhealthy; in every case the
fresh HealthCheckResult replaces the stored status, cached result and
last-seen time wholesale, never as a partial merge. -/
theorem active_check_classification (fetch : HealthFetch) (now : Nat) (reg : Registry)
    (serviceId : String) (s : Service) (h : findById reg serviceId = some s) :
    (∀ st body, fetch s.getFullHealthUrl HEALTH_CHECK_TIMEOUT_MS =
        HealthFetchOutcome.ok st body → 200 ≤ st → st ≤ 299 →
      (checkServiceHealth fetch now reg serviceId).1.status = ServiceStatus.healthy)
    ∧ (∀ st body, fetch s.getFullHealthUrl HEALTH_CHECK_TIMEOUT_MS =
        HealthFetchOutcome.ok st body → 500 ≤ st →
      (checkServiceHealth fetch now reg serviceId).1.status = ServiceStatus.unhealthy)
    ∧ (∀ st body, fetch s.getFullHealthUrl HEALTH_CHECK_TIMEOUT_MS =
        HealthFetchOutcome.ok st body → st < 200 ∨ (299 < st ∧ st < 500) →
      (checkServiceHealth fetch now reg serviceId).1.status = ServiceStatus.degraded)
    ∧ (∀ msg, fetch s.getFullHealthUrl HEALTH_CHECK_TIMEOUT_MS =
        HealthFetchOutcome.failure msg →
      (checkServiceHealth fetch now reg serviceId).1.status = ServiceStatus.unhealthy)
    ∧ (checkServiceHealth fetch now reg serviceId).2 =
        save reg { s with
          status := (checkServiceHealth fetch now reg serviceId).1.status
          lastHealthCheck := some (checkServiceHealth fetch now reg serviceId).1
          lastSeenAt := now } := by
  refine ⟨?_, ?_, ?_, ?_, ?_⟩
  · intro st body hf h1 h2
    rw [checkServiceHealth_fst fetch now reg serviceId s h, hf]
    simp only
    rw [if_pos ⟨h1, h2⟩]
  · intro st body hf h1
    rw [checkServiceHealth_fst fetch now reg serviceId s h, hf]
    simp only
    rw [if_neg (by omega), if_pos h1]
  · intro st body hf h1
    rw [checkServiceHealth_fst fetch now reg serviceId s h, hf]
    simp only
    rw [if_neg (by omega), if_neg (by omega)]
  · intro msg hf
    rw [checkServiceHealth_fst fetch now reg serviceId s h, hf]
  · rw [checkServiceHealth_snd fetch now reg serviceId s h]
    rfl

/-! ## Claim C9: initial health check on a fresh registration -/

/-- A constructed service carries the id of its constructor input. -/
theorem service_create_id {props : ServiceProps} {now : Nat} {s : Service}
    (h : Service.create props now = Except.ok s) : s.id = props.id := by
  unfold Service.create at h
  split_ifs at h with h1 h2 h3
  simp only [Except.ok.injEq] at h
  rw [← h]

/-- C9: registering a fresh derived identifier saves the new entry and
performs one active health check of it through the shared store before
returning; a failing initial check does not fail the registration — the
service remains registered and its snapshot is still returned (with the
unhealthy status the failed check wrote). -/
theorem initial_health_check_on_registration (fetch : HealthFetch) (now : Nat)
    (reg : Registry) (req : RegisterServiceRequest) (service : Service)
    (hnone : findById reg (generateServiceId req.name) = none)
    (hok : Service.create (propsOfRequest req) now = Except.ok service) :
    ∃ out, registerService fetch now reg req = Except.ok out
      ∧ out.registry =
          (checkServiceHealth fetch now (save reg service) (generateServiceId req.name)).2
      ∧ findById out.registry (generateServiceId req.name) = some out.snapshot
      ∧ (∀ msg, fetch service.getFullHealthUrl HEALTH_CHECK_TIMEOUT_MS =
          HealthFetchOutcome.failure msg →
          out.snapshot.status = ServiceStatus.unhealthy) := by
  have hsid : service.id = generateServiceId req.name := by
    rw [service_create_id hok]
    rfl
  have hfind1 : findById (save reg service) (generateServiceId req.name) = some service := by
    rw [findById_save, if_pos hsid.symm]
  have hsnd := checkServiceHealth_snd fetch now (save reg service)
    (generateServiceId req.name) service hfind1
  have hupd :
      findById
        (checkServiceHealth fetch now (save reg service) (generateServiceId req.name)).2
        (generateServiceId req.name) =
      some (service.updateHealthStatus
        (checkServiceHealth fetch now (save reg service) (generateServiceId req.name)).1
        now) := by
    rw [hsnd, findById_save, if_pos (by simp [Service.updateHealthStatus, hsid])]
  unfold registerService
  simp only [hnone, hok]
  refine ⟨_, rfl, rfl, ?_, ?_⟩
  · rw [hupd]
    rfl
  · intro msg hmsg
    simp only [hupd, Option.getD_some]
    simp only [Service.updateHealthStatus]
    rw [checkServiceHealth_fst fetch now (save reg service)
      (generateServiceId req.name) service hfind1, hmsg]

/-! ## Claim C7: broadcast isolation -/

/-- The Except component of proxy depends on the registry only through
the looked-up target. -/
theorem proxy_fst_congr (fetch : GatewayFetch) (now : Nat) (regA regB : Registry)
    (req : ProxyRequest) (h : findById regA req.serviceId = findById regB req.serviceId) :
    (proxy fetch now regA req).1 = (proxy fetch now regB req).1 := by
  unfold proxy
  rw [h]
  cases findById regB req.serviceId with
  | none => rfl
  | some s =>
    by_cases hav : s.isAvailable
    · simp only [hav, if_true]
      cases proxyCore fetch s req <;> rfl
    · simp [hav]

/-- A proxied call can change the directory only at its own target id. -/
theorem proxy_snd_preserves (fetch : GatewayFetch) (now : Nat) (reg : Registry)
    (req : ProxyRequest) (i : String) (hi : i ≠ req.serviceId) :
    findById (proxy fetch now reg req).2 i = findById reg i := by
  unfold proxy
  cases hf : findById reg req.serviceId with
  | none => rfl
  | some s =>
    have hsid : s.id = req.serviceId := findById_some_id hf
    by_cases hav : s.isAvailable
    · simp only [hav, if_true]
      cases hc : proxyCore fetch s req with
      | ok resp =>
        simp only
        rw [findById_save, if_neg (by simp only [Service.touch]; rw [hsid]; exact hi)]
      | error e => rfl
    · simp [hav]

/-- The entry a broadcast leg records depends on the registry only
through its own target. -/
theorem broadcastLeg_fst_congr (fetch : GatewayFetch) (now : Nat) (regA regB : Registry)
    (s : Service) (message : String) (h : findById regA s.id = findById regB s.id) :
    (broadcastLeg fetch now regA s message).1 = (broadcastLeg fetch now regB s message).1 := by
  unfold broadcastLeg
  simp only
  rw [proxy_fst_congr fetch now regA regB (broadcastRequest s.id message) h]

/-- A broadcast leg can change the directory only at its own target
id. -/
theorem broadcastLeg_snd_preserves (fetch : GatewayFetch) (now : Nat) (reg : Registry)
    (s : Service) (message : String) (i : String) (hi : i ≠ s.id) :
    findById (broadcastLeg fetch now reg s message).2 i = findById reg i := by
  unfold broadcastLeg
  simp only
  exact proxy_snd_preserves fetch now reg (broadcastRequest s.id message) i hi

/-- Running the legs one after another over targets with distinct ids
records, for every target, exactly the entry its leg would produce
against the original directory. -/
theorem broadcastGo_entries (fetch : GatewayFetch) (now : Nat) (message : String)
    (reg0 : Registry) :
    ∀ (targets : List Service) (regCur : Registry),
      (targets.map (fun s => s.id)).Nodup →
      (∀ x ∈ targets, findById regCur x.id = findById reg0 x.id) →
      (broadcastGo fetch now message targets regCur).1 =
        targets.map (fun s => (s.id, (broadcastLeg fetch now reg0 s message).1)) := by
  intro targets
  induction targets with
  | nil => intro regCur _ _; rfl
  | cons s rest ih =>
    intro regCur hnd hinv
    have hhead : (broadcastLeg fetch now regCur s message).1 =
        (broadcastLeg fetch now reg0 s message).1 :=
      broadcastLeg_fst_congr fetch now regCur reg0 s message
        (hinv s (List.mem_cons_self _ _))
    have hnd2 : (rest.map (fun s => s.id)).Nodup := by
      simp only [List.map_cons, List.nodup_cons] at hnd
      exact hnd.2
    have hne : ∀ x ∈ rest, x.id ≠ s.id := by
      intro x hx heq
      simp only [List.map_cons, List.nodup_cons] at hnd
      exact hnd.1 (heq ▸ List.mem_map_of_mem (fun s => s.id) hx)
    have hinv2 : ∀ x ∈ rest,
        findById (broadcastLeg fetch now regCur s message).2 x.id = findById reg0 x.id := by
      intro x hx
      rw [broadcastLeg_snd_preserves fetch now regCur s message x.id (hne x hx)]
      exact hinv x (List.mem_cons_of_mem _ hx)
    simp only [broadcastGo]
    rw [hhead, ih _ hnd2 hinv2, List.map_cons]

/-- C7: every selected target of a broadcast receives one independent
proxy POST: the result holds one entry per target, each computed from
that target alone against the pre-broadcast directory; a leg whose call
throws contributes an error entry carrying its message under its own id
while every other leg records its own outcome, and the broadcast itself
never fails (it is a total function of the settled legs). -/
theorem broadcast_isolation (fetch : GatewayFetch) (now : Nat) (reg : Registry)
    (t : ServiceType) (message : String)
    (hids : (reg.map (fun s => s.id)).Nodup) :
    (broadcast fetch now reg t message).1 =
      (broadcastTargets reg t).map
        (fun s => (s.id, (broadcastLeg fetch now reg s message).1))
    ∧ (∀ s, s ∈ broadcastTargets reg t →
        ∀ e reg2,
        proxy fetch now reg (broadcastRequest s.id message) = (Except.error e, reg2) →
        (s.id, BroadcastEntry.failure e.message) ∈ (broadcast fetch now reg t message).1) := by
  have hsub : (broadcastTargets reg t).Sublist reg :=
    (List.filter_sublist _).trans (List.filter_sublist _)
  have hnd : ((broadcastTargets reg t).map (fun s => s.id)).Nodup :=
    List.Nodup.sublist (hsub.map (fun s => s.id)) hids
  have hmain := broadcastGo_entries fetch now message reg (broadcastTargets reg t) reg hnd
    (fun x _ => rfl)
  refine ⟨hmain, ?_⟩
  intro s hs e reg2 hp
  unfold broadcast
  rw [hmain]
  have hleg : (broadcastLeg fetch now reg s message).1 = BroadcastEntry.failure e.message := by
    unfold broadcastLeg
    simp only [hp]
  rw [← hleg]
  exact List.mem_map_of_mem _ hs

/-! ## URL lemmas and claim C3 -/

/-- A successful scheme split reconstructs its input. -/
theorem splitScheme_eq (l : List Char) :
    ∀ sch rest, splitScheme l = some (sch, rest) →
      l = sch ++ ':' :: '/' :: '/' :: rest := by
  induction l with
  | nil => intro sch rest h; simp [splitScheme] at h
  | cons c tl ih =>
    intro sch rest h
    unfold splitScheme at h
    by_cases hc : c = ':' ∧ tl.take 2 = ['/', '/']
    · rw [if_pos hc] at h
      simp only [Option.some.injEq, Prod.mk.injEq] at h
      obtain ⟨hsch, hrest⟩ := h
      subst hsch
      subst hrest
      have h2 : tl = '/' :: '/' :: tl.drop 2 := by
        conv_lhs => rw [← List.take_append_drop 2 tl]
        rw [hc.2]
        rfl
      simp only [List.nil_append]
      rw [hc.1, ← h2]
    · rw [if_neg hc] at h
      cases hs : splitScheme tl with
      | none => rw [hs] at h; simp at h
      | some p =>
        rw [hs] at h
        simp only [Option.map_some', Option.some.injEq, Prod.mk.injEq] at h
        obtain ⟨h1, h2⟩ := h
        subst h1
        subst h2
        rw [ih p.1 p.2 (by rw [hs])]
        simp [List.cons_append]

/-- A parsed URL reconstructs its input as scheme, separator, authority
and path tail. -/
theorem parseUrl_eq (s : String) (u : UrlParts) (h : parseUrl s = some u) :
    s = u.scheme ++ "://" ++ u.authority ++ u.pathQuery := by
  unfold parseUrl at h
  cases hs : splitScheme s.data with
  | none => rw [hs] at h; simp at h
  | some p =>
    rw [hs] at h
    simp only at h
    by_cases hv : validScheme p.1 &&
        !(p.2.takeWhile (fun c => c != '/' && c != '?')).isEmpty
    · rw [if_pos hv] at h
      have hu : UrlParts.mk (String.mk p.1)
          (String.mk (p.2.takeWhile (fun c => c != '/' && c != '?')))
          (String.mk (p.2.dropWhile (fun c => c != '/' && c != '?'))) = u := by
        simpa using h
      have hdata := splitScheme_eq s.data p.1 p.2 (by rw [hs])
      refine congrArg String.mk ?_
      rw [← hu]
      simp only [String.data_append]
      rw [hdata]
      have hTD := List.takeWhile_append_dropWhile
        (p := fun c => c != '/' && c != '?') (l := p.2)
      simp only [List.append_assoc]
      rw [hTD]
      rfl
    · rw [if_neg hv] at h
      simp at h

/-- A path that starts with a slash is never itself an absolute URL. -/
theorem parseUrl_of_slash (p : String) (rest : List Char) (h : p.data = '/' :: rest) :
    parseUrl p = none := by
  unfold parseUrl
  rw [h]
  unfold splitScheme
  rw [if_neg (by intro hc; exact absurd hc.1 (by decide))]
  cases hs : splitScheme rest with
  | none => simp [hs]
  | some q =>
    simp only [hs, Option.map_some']
    have halpha : ('/' : Char).isAlpha = false := by decide
    simp [validScheme, halpha]

/-- C3 counterexample: the claim states the destination is the base
address concatenated with the request path, base path component
included.  For the stored base address http://host:3000/api and the
request path /status the gateway builds http://host:3000/status — the
base path component /api is dropped — and the outbound call goes to that
dropped-path address. -/
theorem proxy_base_path_dropped_cex :
    destinationUrl c3Service (demoProxyRequest "svc") = "http://host:3000/status"
    ∧ c3Service.baseUrl ++ (demoProxyRequest "svc").path = "http://host:3000/api/status"
    ∧ destinationUrl c3Service (demoProxyRequest "svc") ≠
        c3Service.baseUrl ++ (demoProxyRequest "svc").path
    ∧ (proxy c3Fetch 0 [c3Service] (demoProxyRequest "svc")).1 =
        Except.ok { status := 200, headers := [], body := "hit", responseTimeMs := 0 } := by
  refine ⟨by decide, by decide, by decide, by rfl⟩

/-- C3 (amended): for every proxy call to an available service whose
request path starts with a single slash — the shape every gateway route
produces — the outbound request is issued to the destination formed from
the base address origin (scheme and authority) followed by the request
path, with each query parameter appended; when the base address has no
path component this equals the concatenation of base address and path,
but a path component in the base address is dropped, not preserved. -/
theorem proxy_destination (fetch : GatewayFetch) (now : Nat) (reg : Registry)
    (req : ProxyRequest) (s : Service) (base : UrlParts)
    (hfind : findById reg req.serviceId = some s)
    (havail : s.isAvailable = true)
    (hbase : parseUrl s.baseUrl = some base)
    (hpath : singleSlashPath req.path = true) :
    (proxy fetch now reg req).1 = proxyCore fetch s req
    ∧ destinationUrl s req =
        addQueryParams (base.scheme ++ "://" ++ base.authority ++ req.path) req.query
    ∧ (base.pathQuery = "" →
        destinationUrl s req = addQueryParams (s.baseUrl ++ req.path) req.query) := by
  have hconds : req.path.data.take 1 = ['/'] ∧ ¬(req.path.data.take 2 = ['/', '/']) := by
    unfold singleSlashPath at hpath
    simp only [Bool.and_eq_true, decide_eq_true_eq, Bool.not_eq_true', decide_eq_false_iff_not]
      at hpath
    exact hpath
  have hd : ∃ rest, req.path.data = '/' :: rest := by
    cases hdata : req.path.data with
    | nil => rw [hdata] at hconds; simp at hconds
    | cons c rest =>
      have h1 := hconds.1
      rw [hdata] at h1
      simp only [List.take_succ_cons, List.take_zero, List.cons.injEq, and_true] at h1
      subst h1
      exact ⟨rest, rfl⟩
  obtain ⟨rest, hdata⟩ := hd
  have hres : urlResolve req.path base =
      base.scheme ++ "://" ++ base.authority ++ req.path := by
    unfold urlResolve
    rw [parseUrl_of_slash req.path rest hdata]
    rw [if_neg (by rw [hdata]; simp), if_neg hconds.2, if_pos hconds.1]
  refine ⟨?_, ?_, ?_⟩
  · unfold proxy
    rw [hfind]
    simp only [havail, if_true]
    cases hc : proxyCore fetch s req <;> simp [hc]
  · unfold destinationUrl
    rw [hbase]
    show addQueryParams (urlResolve req.path base) req.query = _
    rw [hres]
  · intro hpq
    have hb : s.baseUrl = base.scheme ++ "://" ++ base.authority := by
      have hrec := parseUrl_eq s.baseUrl base hbase
      rw [hpq] at hrec
      simpa using hrec
    unfold destinationUrl
    rw [hbase]
    show addQueryParams (urlResolve req.path base) req.query = _
    rw [hres, hb]

/-! ## Concrete witnesses -/

/-- Witness for C1 on the demonstration directory: an unknown id fails
NOT_FOUND, the starting entry fails SERVICE_UNAVAILABLE, the healthy
entry reaches the outbound call, and the broadcast targets are exactly
the healthy and the degraded agent. -/
theorem availability_gate_witness :
    (proxy demoGatewayFetch 0 demoReg (demoProxyRequest "ghost")).1 =
      Except.error (GatewayError.domain (throwIfNullError "ghost"))
    ∧ (proxy demoGatewayFetch 0 demoReg (demoProxyRequest "beta")).1 =
      Except.error (GatewayError.domain (serviceUnavailableError "beta"))
    ∧ (proxy demoGatewayFetch 0 demoReg (demoProxyRequest "alpha")).1 =
      proxyCore demoGatewayFetch
        (demoService "alpha" "Alpha" ServiceType.agent "http://alpha.example"
          ServiceStatus.healthy)
        (demoProxyRequest "alpha")
    ∧ broadcastTargets demoReg ServiceType.agent =
      [demoService "alpha" "Alpha" ServiceType.agent "http://alpha.example"
        ServiceStatus.healthy,
       demoService "gamma" "Gamma" ServiceType.agent "http://gamma.example"
        ServiceStatus.degraded] := by
  refine ⟨?_, ?_, ?_, ?_⟩
  · exact (availability_gate demoGatewayFetch 0 demoReg (demoProxyRequest "ghost")).1
      (by decide)
  · exact (availability_gate demoGatewayFetch 0 demoReg (demoProxyRequest "beta")).2.1
      (demoService "beta" "Beta" ServiceType.agent "http://beta.example"
        ServiceStatus.starting)
      (by decide) (by decide)
  · exact (availability_gate demoGatewayFetch 0 demoReg (demoProxyRequest "alpha")).2.2.1
      (demoService "alpha" "Alpha" ServiceType.agent "http://alpha.example"
        ServiceStatus.healthy)
      (by decide) (Or.inl rfl)
  · rw [(availability_gate demoGatewayFetch 0 demoReg
      (demoProxyRequest "alpha")).2.2.2 ServiceType.agent]
    rfl

/-- Witness for the amended C3 at a base address without a path
component: the destination is the concatenation of base address and
request path. -/
theorem proxy_destination_witness :
    (proxy demoGatewayFetch 0 demoReg (demoProxyRequest "alpha")).1 =
      proxyCore demoGatewayFetch
        (demoService "alpha" "Alpha" ServiceType.agent "http://alpha.example"
          ServiceStatus.healthy)
        (demoProxyRequest "alpha")
    ∧ destinationUrl
        (demoService "alpha" "Alpha" ServiceType.agent "http://alpha.example"
          ServiceStatus.healthy)
        (demoProxyRequest "alpha") =
      addQueryParams ("http" ++ "://" ++ "alpha.example" ++ "/status") []
    ∧ destinationUrl
        (demoService "alpha" "Alpha" ServiceType.agent "http://alpha.example"
          ServiceStatus.healthy)
        (demoProxyRequest "alpha") =
      addQueryParams ("http://alpha.example" ++ "/status") [] := by
  have h := proxy_destination demoGatewayFetch 0 demoReg (demoProxyRequest "alpha")
    (demoService "alpha" "Alpha" ServiceType.agent "http://alpha.example"
      ServiceStatus.healthy)
    (UrlParts.mk "http" "alpha.example" "")
    (by decide) (by decide) (by decide) (by decide)
  exact ⟨h.1, h.2.1, h.2.2 rfl⟩

/-- Witness for C4: re-registering Alpha at time 7 returns the stored
entry with only lastSeenAt moved to 7 and replaces nothing else in the
directory. -/
theorem idempotent_reregistration_witness :
    registerService demoFailingHealthFetch 7 demoReg demoRegisterAlpha =
      Except.ok
        { snapshot :=
            { demoService "alpha" "Alpha" ServiceType.agent "http://alpha.example"
                ServiceStatus.healthy with lastSeenAt := 7 }
          registry :=
            [{ demoService "alpha" "Alpha" ServiceType.agent "http://alpha.example"
                ServiceStatus.healthy with lastSeenAt := 7 },
             demoService "beta" "Beta" ServiceType.agent "http://beta.example"
               ServiceStatus.starting,
             demoService "gamma" "Gamma" ServiceType.agent "http://gamma.example"
               ServiceStatus.degraded]
          events := [] } := by
  have h := idempotent_reregistration demoFailingHealthFetch 7 demoReg demoRegisterAlpha
    (demoService "alpha" "Alpha" ServiceType.agent "http://alpha.example"
      ServiceStatus.healthy)
    (by decide)
  rw [h.1]
  rfl

/-- Witness for C5: the snapshot returned for the Alpha registration
carries exactly the derived slug. -/
theorem slug_derivation_witness :
    ("alpha" : String) = generateServiceId demoRegisterAlpha.name := by
  exact (slug_derivation.2.2.2 demoFailingHealthFetch 7 demoReg demoRegisterAlpha
    { snapshot :=
        { demoService "alpha" "Alpha" ServiceType.agent "http://alpha.example"
            ServiceStatus.healthy with lastSeenAt := 7 }
      registry :=
        [{ demoService "alpha" "Alpha" ServiceType.agent "http://alpha.example"
            ServiceStatus.healthy with lastSeenAt := 7 },
         demoService "beta" "Beta" ServiceType.agent "http://beta.example"
           ServiceStatus.starting,
         demoService "gamma" "Gamma" ServiceType.agent "http://gamma.example"
           ServiceStatus.degraded]
      events := [] }
    (by rfl)).symm

/-- Witness for C6: the four classifications at the healthy alpha entry,
and the wholesale persistence of the 204 check. -/
theorem active_check_classification_witness :
    (checkServiceHealth demoHealthFetch204 3 demoReg "alpha").1.status =
      ServiceStatus.healthy
    ∧ (checkServiceHealth demoHealthFetch503 3 demoReg "alpha").1.status =
      ServiceStatus.unhealthy
    ∧ (checkServiceHealth demoHealthFetch404 3 demoReg "alpha").1.status =
      ServiceStatus.degraded
    ∧ (checkServiceHealth demoFailingHealthFetch 3 demoReg "alpha").1.status =
      ServiceStatus.unhealthy
    ∧ (checkServiceHealth demoHealthFetch204 3 demoReg "alpha").2 =
      save demoReg
        { demoService "alpha" "Alpha" ServiceType.agent "http://alpha.example"
            ServiceStatus.healthy with
          status := (checkServiceHealth demoHealthFetch204 3 demoReg "alpha").1.status
          lastHealthCheck := some (checkServiceHealth demoHealthFetch204 3 demoReg "alpha").1
          lastSeenAt := 3 } := by
  refine ⟨?_, ?_, ?_, ?_, ?_⟩
  · exact (active_check_classification demoHealthFetch204 3 demoReg "alpha"
      (demoService "alpha" "Alpha" ServiceType.agent "http://alpha.example"
        ServiceStatus.healthy) (by decide)).1 204 none rfl (by omega) (by omega)
  · exact (active_check_classification demoHealthFetch503 3 demoReg "alpha"
      (demoService "alpha" "Alpha" ServiceType.agent "http://alpha.example"
        ServiceStatus.healthy) (by decide)).2.1 503 none rfl (by omega)
  · exact (active_check_classification demoHealthFetch404 3 demoReg "alpha"
      (demoService "alpha" "Alpha" ServiceType.agent "http://alpha.example"
        ServiceStatus.healthy) (by decide)).2.2.1 404 none rfl (by omega)
  · exact (active_check_classification demoFailingHealthFetch 3 demoReg "alpha"
      (demoService "alpha" "Alpha" ServiceType.agent "http://alpha.example"
        ServiceStatus.healthy) (by decide)).2.2.2.1 "connection refused" rfl
  · exact (active_check_classification demoHealthFetch204 3 demoReg "alpha"
      (demoService "alpha" "Alpha" ServiceType.agent "http://alpha.example"
        ServiceStatus.healthy) (by decide)).2.2.2.2

/-- Witness for C7: broadcasting to the agents with the gamma leg
raising records the two sibling outcomes independently: a success entry
for alpha and an error entry for gamma; the starting beta is not a
target. -/
theorem broadcast_isolation_witness :
    (broadcast demoGatewayFetch 0 demoReg ServiceType.agent "ping").1 =
      [("alpha", BroadcastEntry.success "ok-alpha"),
       ("gamma", BroadcastEntry.failure "boom")] := by
  have h := broadcast_isolation demoGatewayFetch 0 demoReg ServiceType.agent "ping"
    (by decide)
  rw [h.1]
  rfl

/-- Witness for C9: registering New Agent while its endpoint refuses
connections still succeeds, and the returned snapshot carries the
unhealthy status the failed initial check wrote. -/
theorem initial_health_check_witness :
    (registerService demoFailingHealthFetch 0 demoReg demoRegisterNew).map
      (fun out => out.snapshot.status) = Except.ok ServiceStatus.unhealthy := by
  obtain ⟨out, h1, h2, h3, h4⟩ := initial_health_check_on_registration
    demoFailingHealthFetch 0 demoReg demoRegisterNew demoNewService
    (by decide) (by rfl)
  rw [h1]
  simp only [Except.map]
  rw [h4 "connection refused" rfl]

/-- Witness for C10: a heartbeat for ghost is a no-op while getService
and deregisterService fail NOT_FOUND there, and a heartbeat for alpha
refreshes only that entry. -/
theorem heartbeat_absent_ok_witness :
    heartbeat 9 demoReg "ghost" = demoReg
    ∧ getService demoReg "ghost" = Except.error (throwIfNullError "ghost")
    ∧ deregisterService 9 demoReg "ghost" = Except.error (throwIfNullError "ghost")
    ∧ heartbeat 9 demoReg "alpha" =
      [{ demoService "alpha" "Alpha" ServiceType.agent "http://alpha.example"
          ServiceStatus.healthy with lastSeenAt := 9 },
       demoService "beta" "Beta" ServiceType.agent "http://beta.example"
         ServiceStatus.starting,
       demoService "gamma" "Gamma" ServiceType.agent "http://gamma.example"
         ServiceStatus.degraded] := by
  obtain ⟨ha, hb, hc⟩ := (heartbeat_absent_ok 9 demoReg "ghost").1 (by decide)
  refine ⟨ha, hb, hc, ?_⟩
  have h := ((heartbeat_absent_ok 9 demoReg "alpha").2
    (demoService "alpha" "Alpha" ServiceType.agent "http://alpha.example"
      ServiceStatus.healthy) (by decide)).1
  rw [h]
  rfl

end Overlord
